import Mathlib

/-
Verification of the scenario-classification engine of the ui-claim-tracker
repository, embedded shallowly in Lean 4.

The engine lives in src/utils/getScenarioContent.tsx and is transcribed
definition by definition below.  Its helper modules (src/utils/timeSlot.ts,
src/utils/formatDate.ts, src/types/common, src/utils/getClaimStatus,
src/utils/getClaimDetails) are not present in the sources; only their test
files are.  Those helpers are modelled from the specification (spec.md,
sections 4.1 and 4.2) and are marked as such in their doc comments.

TypeScript values of type `string | undefined` are modelled as
`Option String`; JavaScript truthiness of such a value (false exactly on
`undefined` and the empty string) is the function `tval`.  Booleans of type
`boolean | undefined` are `Option Bool`, with `=== true` becoming
`= some true`.  JavaScript `Date` values are modelled as a `DateTime`
record of calendar fields; comparison of two dates becomes comparison of
the injective numeric key `DateTime.key`.
-/

/-- Truthiness of a TypeScript `string | undefined` value: false exactly on
`undefined` and on the empty string. -/
def tval : Option String → Bool
  | none => false
  | some s => !s.isEmpty

/-- One pending-determination sub-record, from `src/types/common`
(fields as used by `src/utils/getScenarioContent.tsx`). -/
structure PendingDetermination where
  determinationStatus : Option String
  scheduleDate : Option String
  requestDate : Option String
  timeSlotDesc : Option String
deriving DecidableEq, Repr

/-- The top-level claim record, from `src/types/common` (fields as used by
`src/utils/getScenarioContent.tsx`).  `claimDetails` only matters by its
presence here, so its payload is modelled as `Unit`. -/
structure Claim where
  claimDetails : Option Unit
  hasPendingWeeks : Option Bool
  hasCertificationWeeksAvailable : Option Bool
  pendingDetermination : Option (List PendingDetermination)
deriving DecidableEq, Repr

/-- The six display scenarios (`ScenarioType` enum in
`src/utils/getScenarioContent.tsx`). -/
inductive ScenarioType where
  | Scenario1
  | Scenario2
  | Scenario3
  | Scenario4
  | Scenario5
  | Scenario6
deriving DecidableEq, Repr

/-- Result of the determination classifier (`PendingDeterminationScenario`
interface in `src/utils/getScenarioContent.tsx`). -/
structure PendingDeterminationScenario where
  scenarioType : ScenarioType
  pendingDetermination : Option PendingDetermination
deriving DecidableEq, Repr

/-- The fixed ignore-set of determination statuses
(`NonPendingDeterminationValues` in `src/utils/getScenarioContent.tsx`). -/
def NonPendingDeterminationValues : List String :=
  ["Canceled", "Complete", "TRAN", "INVL", "IDNC", "1277", "OTHR", "ClmCX"]

/-- `isDeterminationStatusPending` from `src/utils/getScenarioContent.tsx`:
pending iff the status is falsy or not a member of the ignore-set. -/
def isDeterminationStatusPending (pendingDetermination : PendingDetermination) : Bool :=
  !tval pendingDetermination.determinationStatus ||
    !NonPendingDeterminationValues.contains (pendingDetermination.determinationStatus.getD "")

/-- A calendar date-time, modelling a (valid) JavaScript `Date`. -/
structure DateTime where
  year : Nat
  month : Nat
  day : Nat
  hour : Nat
  minute : Nat
  second : Nat
deriving DecidableEq, Repr

/-- Injective numeric key of a `DateTime`; comparing keys is comparing
the date-times chronologically (fields are within two decimal digits). -/
def DateTime.key (d : DateTime) : Nat :=
  ((((d.year * 100 + d.month) * 100 + d.day) * 100 + d.hour) * 100 + d.minute) * 100 + d.second

/-- Numeric key of the calendar day of a `DateTime`, ignoring time-of-day. -/
def DateTime.dayKey (d : DateTime) : Nat :=
  (d.year * 100 + d.month) * 100 + d.day

/-- Numeric value of a decimal digit character, or `none`. -/
def digitVal (c : Char) : Option Nat :=
  if c.isDigit then some (c.toNat - 48) else none

/-- Read exactly two decimal digits. -/
def read2 (c1 c2 : Char) : Option Nat := do
  pure ((← digitVal c1) * 10 + (← digitVal c2))

/-- Read exactly four decimal digits. -/
def read4 (c1 c2 c3 c4 : Char) : Option Nat := do
  pure (((← digitVal c1) * 10 + (← digitVal c2)) * 100 + ((← digitVal c3) * 10 + (← digitVal c4)))

/-- Build a `DateTime` when the calendar fields are in range, else `none`. -/
def mkDateTime (y mo d h mi s : Nat) : Option DateTime :=
  if 1 ≤ mo ∧ mo ≤ 12 ∧ 1 ≤ d ∧ d ≤ 31 ∧ h ≤ 23 ∧ mi ≤ 59 ∧ s ≤ 59 then
    some ⟨y, mo, d, h, mi, s⟩
  else
    none

/-- Modelled from the spec: the date parser behind `src/utils/formatDate.ts`
(absent from the sources; only its tests exist).  Section 4.1 says dates are
ISO-like calendar date/time strings; we accept `YYYY-MM-DD` optionally
followed by `THH:MM:SS`, and fail on anything else. -/
def parseDateTime (text : String) : Option DateTime :=
  match text.data with
  | [y1, y2, y3, y4, '-', m1, m2, '-', d1, d2] => do
      let y ← read4 y1 y2 y3 y4
      let mo ← read2 m1 m2
      let d ← read2 d1 d2
      mkDateTime y mo d 0 0 0
  | [y1, y2, y3, y4, '-', m1, m2, '-', d1, d2, 'T', h1, h2, ':', n1, n2, ':', s1, s2] => do
      let y ← read4 y1 y2 y3 y4
      let mo ← read2 m1 m2
      let d ← read2 d1 d2
      let h ← read2 h1 h2
      let mi ← read2 n1 n2
      let s ← read2 s1 s2
      mkDateTime y mo d h mi s
  | _ => none

/-- The minimum threshold date of `isValidDate` (spec section 4.1):
2013-01-01. -/
def minValidDate : DateTime := ⟨2013, 1, 1, 0, 0, 0⟩

/-- Modelled from the spec: `isValidDate` of `src/utils/formatDate.ts`
(absent from the sources).  Spec section 4.1: false if unparseable or if the
parsed date is earlier than the minimum threshold date, true otherwise. -/
def isValidDate (text : String) : Bool :=
  match parseDateTime text with
  | none => false
  | some d => decide (minValidDate.key ≤ d.key)

/-- Modelled from the spec: `isDatePast` of `src/utils/formatDate.ts`
(absent from the sources).  Spec section 4.1: true iff the date's calendar
day is strictly earlier than the current calendar day; `today` is passed
explicitly in place of the ambient clock. -/
def isDatePast (d : DateTime) (today : DateTime) : Bool :=
  decide (d.dayKey < today.dayKey)

/-- Modelled from the spec: `parseConvertDate` of `src/utils/formatDate.ts`
(absent from the sources): parse a possibly-absent date string into a
`DateTime`.  Every call site guards it with `isValidDate`, so the default
value for a failed parse is never compared. -/
def parseConvertDate (text : Option String) : DateTime :=
  (parseDateTime (text.getD "")).getD ⟨0, 0, 0, 0, 0, 0⟩

/-- A parsed time slot (spec section 3): two 12-hour-clock numbers. -/
structure ParsedTimeSlot where
  rangeStart : Nat
  rangeEnd : Nat
deriving DecidableEq, Repr

/-- Split a character list at the first slot separator (hyphen, en dash or
em dash); `none` when no separator occurs. -/
def splitAtDash : List Char → Option (List Char × List Char)
  | [] => none
  | c :: rest =>
      if c = '-' ∨ c = '–' ∨ c = '—' then
        some ([], rest)
      else
        match splitAtDash rest with
        | some (l, r) => some (c :: l, r)
        | none => none

/-- Read a one- or two-digit slot number. -/
def readSlotNum : List Char → Option Nat
  | [c] => digitVal c
  | [c1, c2] => read2 c1 c2
  | _ => none

/-- Modelled from the spec: `parseTimeSlot` of `src/utils/timeSlot.ts`
(absent from the sources; only its tests exist).  Spec section 4.2: the
exact shape is a 1-2 digit number, a hyphen/en dash/em dash, and a 1-2
digit number; out-of-range numbers (outside 1..12) are failures. -/
def parseTimeSlot (text : String) : Option ParsedTimeSlot := do
  let (l, r) ← splitAtDash text.data
  let a ← readSlotNum l
  let b ← readSlotNum r
  if 1 ≤ a ∧ a ≤ 12 ∧ 1 ≤ b ∧ b ≤ 12 then some ⟨a, b⟩ else none

/-- Modelled from the spec: `samePeriod` of `src/utils/timeSlot.ts` (absent
from the sources).  Spec section 4.2: hours 1-7 signify PM, hours 8-12
signify AM; true iff both hours map to the same period. -/
def samePeriod (hourA hourB : Nat) : Bool :=
  decide (1 ≤ hourA ∧ hourA ≤ 7) == decide (1 ≤ hourB ∧ hourB ≤ 7)

/-- Effective chronological position of a 12-hour-clock hour under the
scheduling convention of spec section 4.2: AM hours 8-12 come first, then
PM hours 1-7. -/
def effectiveHourOrder (h : Nat) : Nat :=
  if 8 ≤ h then h else h + 12

/-- Modelled from the spec: `isFirstTimeSlotEarlier` of
`src/utils/timeSlot.ts` (absent from the sources; only its tests exist).
Spec section 4.2: both parses fail gives absent; a parsed slot beats a
failed one regardless of side; both parsed compares the range starts under
the 12-hour scheduling order, with ties resolving to false. -/
def isFirstTimeSlotEarlier (textA textB : String) : Option Bool :=
  match parseTimeSlot textA, parseTimeSlot textB with
  | none, none => none
  | some _, none => some true
  | none, some _ => some false
  | some a, some b => some (decide (effectiveHourOrder a.rangeStart < effectiveHourOrder b.rangeStart))

/-- `isScheduledStrictlyBefore` from `src/utils/getScenarioContent.tsx`:
compare the parsed schedule dates; on a tie compare the time slots, where
an absent or false tie-break answer yields false. -/
def isScheduledStrictlyBefore (first second : PendingDetermination) : Bool :=
  let firstScheduleDate := parseConvertDate first.scheduleDate
  let secondScheduleDate := parseConvertDate second.scheduleDate
  if firstScheduleDate.key < secondScheduleDate.key then
    true
  else if secondScheduleDate.key < firstScheduleDate.key then
    false
  else
    match isFirstTimeSlotEarlier (first.timeSlotDesc.getD "") (second.timeSlotDesc.getD "") with
    | some true => true
    | _ => false

/-- The four per-record outcomes of the classifier loop (spec section
4.3). -/
inductive RecordClass where
  | pendingScheduled
  | pendingAwaitingDecision
  | notYetScheduled
  | ignored
deriving DecidableEq, Repr

/-- The branch conditions of the loop body of
`identifyPendingDeterminationScenario` (`src/utils/getScenarioContent.tsx`
lines 104-136), read off as a per-record classification. -/
def classifyRecord (today : DateTime) (pd : PendingDetermination) : RecordClass :=
  if isDeterminationStatusPending pd && isValidDate (pd.scheduleDate.getD "") then
    if !isDatePast (parseConvertDate pd.scheduleDate) today then
      RecordClass.pendingScheduled
    else
      RecordClass.pendingAwaitingDecision
  else if !tval pd.determinationStatus && !tval pd.scheduleDate && tval pd.requestDate then
    RecordClass.notYetScheduled
  else
    RecordClass.ignored

/-- The mutable state of the loop in `identifyPendingDeterminationScenario`. -/
structure IdentifyState where
  earliestScheduled : Option PendingDetermination
  hasAwaitingDecision : Bool
  hasNotYetScheduled : Bool
deriving DecidableEq, Repr

/-- One iteration of the loop in `identifyPendingDeterminationScenario`
(`src/utils/getScenarioContent.tsx` lines 104-136), transcribed branch by
branch. -/
def identifyStep (today : DateTime) (st : IdentifyState) (pd : PendingDetermination) : IdentifyState :=
  if isDeterminationStatusPending pd && isValidDate (pd.scheduleDate.getD "") then
    if !isDatePast (parseConvertDate pd.scheduleDate) today then
      match st.earliestScheduled with
      | none => { st with earliestScheduled := some pd }
      | some b =>
          if isScheduledStrictlyBefore pd b then
            { st with earliestScheduled := some pd }
          else
            st
    else
      { st with hasAwaitingDecision := true }
  else if !tval pd.determinationStatus && !tval pd.scheduleDate && tval pd.requestDate then
    { st with hasNotYetScheduled := true }
  else
    st

/-- `identifyPendingDeterminationScenario` from
`src/utils/getScenarioContent.tsx`: fold the loop body over the records,
then apply the precedence scenario 2 over 3 over 1, else null. -/
def identifyPendingDeterminationScenario (today : DateTime)
    (pendingDeterminations : List PendingDetermination) : Option PendingDeterminationScenario :=
  let st := pendingDeterminations.foldl (identifyStep today) ⟨none, false, false⟩
  match st.earliestScheduled with
  | some e => some ⟨ScenarioType.Scenario2, some e⟩
  | none =>
      if st.hasAwaitingDecision then
        some ⟨ScenarioType.Scenario3, none⟩
      else if st.hasNotYetScheduled then
        some ⟨ScenarioType.Scenario1, none⟩
      else
        none

/-- `getScenario` from `src/utils/getScenarioContent.tsx`: try the pending
determination classifier, then fall back to the flag-based scenarios. -/
def getScenario (today : DateTime) (claimData : Claim) : PendingDeterminationScenario :=
  let base : PendingDeterminationScenario :=
    if claimData.hasPendingWeeks == some true then
      ⟨ScenarioType.Scenario4, none⟩
    else if claimData.hasCertificationWeeksAvailable == some false then
      ⟨ScenarioType.Scenario5, none⟩
    else
      ⟨ScenarioType.Scenario6, none⟩
  match claimData.pendingDetermination with
  | some pds =>
      if pds.length > 0 then
        match identifyPendingDeterminationScenario today pds with
        | some s => s
        | none => base
      else
        base
  | none => base

/-- `continueCertifying` from `src/utils/getScenarioContent.tsx`. -/
def continueCertifying (scenarioType : ScenarioType) (claimData : Claim) : Bool :=
  let isIgnoredScenario := [ScenarioType.Scenario5, ScenarioType.Scenario6].contains scenarioType
  if !isIgnoredScenario && claimData.hasCertificationWeeksAvailable == some true then
    true
  else
    false

/-- The content record returned by `getScenarioContent`.  Modelled from the
spec: content assembly (`getClaimStatus`, `getClaimDetails`, absent from
the sources) is out of scope, so `statusContent` records the inputs the
code passes to `getClaimStatus` and `detailsContent` the (opaque) details
payload. -/
structure ScenarioContent where
  statusContent : ScenarioType × Bool
  detailsContent : Unit
deriving DecidableEq, Repr

/-- `getScenarioContent` from `src/utils/getScenarioContent.tsx`: classify,
build the status content, and raise exactly when the nested claim details
are missing. -/
def getScenarioContent (today : DateTime) (claimData : Claim) : Except String ScenarioContent :=
  let scenarioTypeObject := getScenario today claimData
  let scenarioType := scenarioTypeObject.scenarioType
  let statusContent := (scenarioType, continueCertifying scenarioType claimData)
  match claimData.claimDetails with
  | none => Except.error "Missing claim details"
  | some _ => Except.ok { statusContent := statusContent, detailsContent := () }

/-- Whether an `Except` result is a success. -/
def exceptOk {ε α : Type} : Except ε α → Bool
  | Except.ok _ => true
  | Except.error _ => false

/-- Every parsed time slot has both numbers in the range 1..12. -/
theorem parseTimeSlot_range {text : String} {p : ParsedTimeSlot}
    (h : parseTimeSlot text = some p) :
    1 ≤ p.rangeStart ∧ p.rangeStart ≤ 12 ∧ 1 ≤ p.rangeEnd ∧ p.rangeEnd ≤ 12 := by
  unfold parseTimeSlot at h
  rcases hs : splitAtDash text.data with _ | ⟨l, r⟩ <;> rw [hs] at h
  · simp at h
  · simp only [Option.bind_eq_bind, Option.bind_eq_some] at h
    rcases h with ⟨a, ha, b, hb, c, hc, h⟩
    by_cases hr : 1 ≤ b ∧ b ≤ 12 ∧ 1 ≤ c ∧ c ≤ 12
    · rw [if_pos hr] at h
      injection h with h
      subst h
      simpa using hr
    · rw [if_neg hr] at h
      simp at h

/-- Comparing effective hour positions is the same as the period-wise
comparison: within a period compare numerically, across periods the AM
hour is earlier. -/
theorem effectiveHourOrder_char {x y : Nat}
    (hx1 : 1 ≤ x) (hx2 : x ≤ 12) (hy1 : 1 ≤ y) (hy2 : y ≤ 12) :
    decide (effectiveHourOrder x < effectiveHourOrder y) =
      (if samePeriod x y then decide (x < y) else decide (8 ≤ x)) := by
  interval_cases x <;> interval_cases y <;> rfl

/-- C5: `isFirstTimeSlotEarlier` handles parse failures asymmetrically:
both inputs failing gives an absent result; only the second failing gives
true; only the first failing gives false — a successfully parsed slot is
always treated as earlier than a failed one. -/
theorem c5_time_slot_parse_failure_asymmetry (textA textB : String) :
    (parseTimeSlot textA = none → parseTimeSlot textB = none →
      isFirstTimeSlotEarlier textA textB = none) ∧
    (∀ p, parseTimeSlot textA = some p → parseTimeSlot textB = none →
      isFirstTimeSlotEarlier textA textB = some true) ∧
    (∀ p, parseTimeSlot textA = none → parseTimeSlot textB = some p →
      isFirstTimeSlotEarlier textA textB = some false) := by
  refine ⟨fun ha hb => ?_, fun p ha hb => ?_, fun p ha hb => ?_⟩ <;>
    simp [isFirstTimeSlotEarlier, ha, hb]

/-- Witness for C5 at the concrete inputs of the test file. -/
theorem c5_time_slot_parse_failure_asymmetry_witness :
    isFirstTimeSlotEarlier "not a time slot" "not a time slot" = none ∧
    isFirstTimeSlotEarlier "10-12" "not a time slot" = some true ∧
    isFirstTimeSlotEarlier "not a time slot" "10-12" = some false :=
  ⟨(c5_time_slot_parse_failure_asymmetry "not a time slot" "not a time slot").1
      (by decide) (by decide),
   (c5_time_slot_parse_failure_asymmetry "10-12" "not a time slot").2.1
      ⟨10, 12⟩ (by decide) (by decide),
   (c5_time_slot_parse_failure_asymmetry "not a time slot" "10-12").2.2
      ⟨10, 12⟩ (by decide) (by decide)⟩

/-- C6: when both inputs parse, `isFirstTimeSlotEarlier` compares the two
range starts under the 12-hour-clock ordering in which AM hours 8-12 come
before PM hours 1-7: same period compares numerically, different periods
make the AM start earlier, and a tie (including identical slots) yields
false. -/
theorem c6_time_slot_both_parse_ordering (textA textB : String)
    (pa pb : ParsedTimeSlot)
    (ha : parseTimeSlot textA = some pa) (hb : parseTimeSlot textB = some pb) :
    isFirstTimeSlotEarlier textA textB =
      some (if samePeriod pa.rangeStart pb.rangeStart
            then decide (pa.rangeStart < pb.rangeStart)
            else decide (8 ≤ pa.rangeStart)) ∧
    (pa.rangeStart = pb.rangeStart → isFirstTimeSlotEarlier textA textB = some false) := by
  obtain ⟨ha1, ha2, -, -⟩ := parseTimeSlot_range ha
  obtain ⟨hb1, hb2, -, -⟩ := parseTimeSlot_range hb
  have hchar := effectiveHourOrder_char ha1 ha2 hb1 hb2
  constructor
  · simp [isFirstTimeSlotEarlier, ha, hb, hchar]
  · intro heq
    simp [isFirstTimeSlotEarlier, ha, hb, heq]

/-- Witness for C6 at the concrete inputs of the test file: "10-12" is AM,
"1-3" is PM, so the former is earlier and the latter is not. -/
theorem c6_time_slot_both_parse_ordering_witness :
    (isFirstTimeSlotEarlier "10-12" "1-3" =
      some (if samePeriod 10 1 then decide ((10 : Nat) < 1) else decide ((8 : Nat) ≤ 10))) ∧
    isFirstTimeSlotEarlier "10-12" "10-12" = some false :=
  ⟨(c6_time_slot_both_parse_ordering "10-12" "1-3" ⟨10, 12⟩ ⟨1, 3⟩
      (by decide) (by decide)).1,
   (c6_time_slot_both_parse_ordering "10-12" "10-12" ⟨10, 12⟩ ⟨10, 12⟩
      (by decide) (by decide)).2 rfl⟩

/-- C7: `isValidDate` is false exactly on unparseable text and on parsed
dates earlier than the minimum threshold 2013-01-01; in particular the
minimum date itself is valid, the year-one sentinel is not, and nonsense
text is not.  Being a total Lean function, it never raises. -/
theorem c7_isValidDate_threshold (text : String) :
    (isValidDate text = false ↔
      parseDateTime text = none ∨
        ∃ d, parseDateTime text = some d ∧ d.key < minValidDate.key) ∧
    isValidDate "2013-01-01T00:00:00" = true ∧
    isValidDate "0001-01-01T00:00:00" = false ∧
    isValidDate "nonsense" = false := by
  refine ⟨?_, by decide, by decide, by decide⟩
  unfold isValidDate
  cases h : parseDateTime text with
  | none => simp
  | some d => simp [h, Nat.lt_iff_add_one_le, Nat.not_le]

/-- C8: `getScenarioContent` succeeds exactly when the claim record carries
nested claim details, and the classification itself is total: `getScenario`
always returns one of the six scenario codes. -/
theorem c8_error_only_on_missing_details (today : DateTime) (claimData : Claim) :
    exceptOk (getScenarioContent today claimData) = claimData.claimDetails.isSome ∧
    ((getScenario today claimData).scenarioType = ScenarioType.Scenario1 ∨
     (getScenario today claimData).scenarioType = ScenarioType.Scenario2 ∨
     (getScenario today claimData).scenarioType = ScenarioType.Scenario3 ∨
     (getScenario today claimData).scenarioType = ScenarioType.Scenario4 ∨
     (getScenario today claimData).scenarioType = ScenarioType.Scenario5 ∨
     (getScenario today claimData).scenarioType = ScenarioType.Scenario6) := by
  constructor
  · unfold getScenarioContent
    cases h : claimData.claimDetails <;> simp [h, exceptOk]
  · cases h : (getScenario today claimData).scenarioType <;> simp

/-- C9: `continueCertifying` is true exactly when the scenario is neither
Scenario 5 nor Scenario 6 and the claim's certification-weeks flag is
truthy. -/
theorem c9_continueCertifying_char (scenarioType : ScenarioType) (claimData : Claim) :
    continueCertifying scenarioType claimData = true ↔
      (scenarioType ≠ ScenarioType.Scenario5 ∧ scenarioType ≠ ScenarioType.Scenario6 ∧
        claimData.hasCertificationWeeksAvailable = some true) := by
  cases h : claimData.hasCertificationWeeksAvailable with
  | none => cases scenarioType <;> simp [continueCertifying, h]
  | some b => cases b <;> cases scenarioType <;> simp [continueCertifying, h]

/-- C3: the determination status counts as pending exactly when it is
absent/empty or not a (case-sensitive) member of the ignore-set, and each
record is classified into exactly one of the four categories in the order
of the spec: pending with a valid, not-past schedule date is
PENDING_SCHEDULED; pending with a valid, past schedule date is
PENDING_AWAITING_DECISION; absent status, absent schedule date and present
request date is NOT_YET_SCHEDULED; everything else is IGNORED.  Being a
total Lean function, the classification never raises. -/
theorem c3_record_classification (today : DateTime) (pd : PendingDetermination) :
    (isDeterminationStatusPending pd = true ↔
      (tval pd.determinationStatus = false ∨
        pd.determinationStatus.getD "" ∉ NonPendingDeterminationValues)) ∧
    classifyRecord today pd =
      (if isDeterminationStatusPending pd = true ∧
          isValidDate (pd.scheduleDate.getD "") = true ∧
          isDatePast (parseConvertDate pd.scheduleDate) today = false then
        RecordClass.pendingScheduled
      else if isDeterminationStatusPending pd = true ∧
          isValidDate (pd.scheduleDate.getD "") = true ∧
          isDatePast (parseConvertDate pd.scheduleDate) today = true then
        RecordClass.pendingAwaitingDecision
      else if tval pd.determinationStatus = false ∧ tval pd.scheduleDate = false ∧
          tval pd.requestDate = true then
        RecordClass.notYetScheduled
      else
        RecordClass.ignored) := by
  constructor
  · unfold isDeterminationStatusPending
    cases hp : tval pd.determinationStatus <;>
      cases hm : NonPendingDeterminationValues.contains (pd.determinationStatus.getD "") <;>
        simp_all [List.contains, List.elem_iff]
  · unfold classifyRecord
    cases hp : isDeterminationStatusPending pd <;>
      cases hv : isValidDate (pd.scheduleDate.getD "") <;>
        cases hd : isDatePast (parseConvertDate pd.scheduleDate) today <;>
          cases h1 : tval pd.determinationStatus <;>
            cases h2 : tval pd.scheduleDate <;>
              cases h3 : tval pd.requestDate <;>
                simp_all

/-- C4: when the determination classifier yields no scenario (no pending
determination list, an empty one, or none applicable), `getScenario` falls
back to scenario 4 when `hasPendingWeeks` is exactly true, else to
scenario 5 when `hasCertificationWeeksAvailable` is exactly false, else to
scenario 6. -/
theorem c4_flag_fallback (today : DateTime) (claimData : Claim)
    (h : ∀ pds, claimData.pendingDetermination = some pds → pds ≠ [] →
          identifyPendingDeterminationScenario today pds = none) :
    getScenario today claimData =
      (if claimData.hasPendingWeeks = some true then
        ⟨ScenarioType.Scenario4, none⟩
      else if claimData.hasCertificationWeeksAvailable = some false then
        ⟨ScenarioType.Scenario5, none⟩
      else
        ⟨ScenarioType.Scenario6, none⟩) := by
  unfold getScenario
  cases hpd : claimData.pendingDetermination with
  | none => simp [beq_iff_eq]
  | some pds =>
      cases pds with
      | nil => simp [beq_iff_eq]
      | cons a as =>
          have hid := h (a :: as) hpd (by simp)
          simp [hid, beq_iff_eq]

/-- Witness for C4: a claim with no pending-determination list and
`hasPendingWeeks` true resolves to scenario 4. -/
theorem c4_flag_fallback_witness :
    getScenario ⟨2020, 5, 5, 0, 0, 0⟩ ⟨some (), some true, some true, none⟩ =
      (if (⟨some (), some true, some true, none⟩ : Claim).hasPendingWeeks = some true then
        ⟨ScenarioType.Scenario4, none⟩
      else if (⟨some (), some true, some true, none⟩ : Claim).hasCertificationWeeksAvailable = some false then
        ⟨ScenarioType.Scenario5, none⟩
      else
        ⟨ScenarioType.Scenario6, none⟩) :=
  c4_flag_fallback ⟨2020, 5, 5, 0, 0, 0⟩ ⟨some (), some true, some true, none⟩
    (by intro pds hpds; simp at hpds)

/-- The update of the loop's `earliestScheduled` variable for a scheduled
record: adopt the record when nothing was found yet or when it is
scheduled strictly before the record found so far. -/
def updEarliest (o : Option PendingDetermination) (pd : PendingDetermination) :
    Option PendingDetermination :=
  match o with
  | none => some pd
  | some b => if isScheduledStrictlyBefore pd b then some pd else some b

/-- One loop iteration, re-expressed through the per-record
classification. -/
theorem identifyStep_classify (today : DateTime) (st : IdentifyState)
    (pd : PendingDetermination) :
    identifyStep today st pd =
      match classifyRecord today pd with
      | RecordClass.pendingScheduled =>
          { st with earliestScheduled := updEarliest st.earliestScheduled pd }
      | RecordClass.pendingAwaitingDecision => { st with hasAwaitingDecision := true }
      | RecordClass.notYetScheduled => { st with hasNotYetScheduled := true }
      | RecordClass.ignored => st := by
  obtain ⟨es, ad, ns⟩ := st
  unfold identifyStep classifyRecord updEarliest
  by_cases h1 : (isDeterminationStatusPending pd && isValidDate (pd.scheduleDate.getD "")) = true
  · by_cases h2 : (!isDatePast (parseConvertDate pd.scheduleDate) today) = true
    · simp only [h1, h2, if_true]
      cases es with
      | none => simp
      | some b => by_cases hb : isScheduledStrictlyBefore pd b = true <;> simp [hb]
    · simp [h1, h2]
  · by_cases h3 : (!tval pd.determinationStatus && !tval pd.scheduleDate &&
        tval pd.requestDate) = true <;>
      simp [h1, h3]

/-- Running the loop from any state accumulates: the earliest scheduled
record is the fold of `updEarliest` over the `PENDING_SCHEDULED` records,
and the two flags are disjunctions over the matching record classes. -/
theorem foldl_identifyStep (today : DateTime) (l : List PendingDetermination) :
    ∀ st : IdentifyState,
      l.foldl (identifyStep today) st =
        { earliestScheduled :=
            (l.filter (fun pd =>
              decide (classifyRecord today pd = RecordClass.pendingScheduled))).foldl
                updEarliest st.earliestScheduled,
          hasAwaitingDecision := st.hasAwaitingDecision ||
            l.any (fun pd =>
              decide (classifyRecord today pd = RecordClass.pendingAwaitingDecision)),
          hasNotYetScheduled := st.hasNotYetScheduled ||
            l.any (fun pd =>
              decide (classifyRecord today pd = RecordClass.notYetScheduled)) } := by
  induction l with
  | nil => intro st; simp
  | cons pd rest ih =>
      intro st
      rw [List.foldl_cons, identifyStep_classify, ih]
      cases hc : classifyRecord today pd <;>
        simp [hc, List.filter_cons, List.any_cons, Bool.or_assoc]

/-- Folding `updEarliest` from a found record never loses the record:
the result is the plain keep-the-earlier fold over the remaining list. -/
theorem foldl_updEarliest_some (l : List PendingDetermination) :
    ∀ b : PendingDetermination,
      l.foldl updEarliest (some b) =
        some (l.foldl
          (fun best cur => if isScheduledStrictlyBefore cur best then cur else best) b) := by
  induction l with
  | nil => intro b; rfl
  | cons c rest ih =>
      intro b
      rw [List.foldl_cons, List.foldl_cons]
      by_cases h : isScheduledStrictlyBefore c b = true <;> simp [updEarliest, h, ih]

/-- Any record produced by folding `updEarliest` comes from the list or
from the initial value. -/
theorem foldl_updEarliest_mem (l : List PendingDetermination) :
    ∀ (o : Option PendingDetermination) (x : PendingDetermination),
      l.foldl updEarliest o = some x → x ∈ l ∨ o = some x := by
  induction l with
  | nil => intro o x h; right; simpa using h
  | cons c rest ih =>
      intro o x h
      rw [List.foldl_cons] at h
      rcases ih (updEarliest o c) x h with hmem | heq
      · exact Or.inl (List.mem_cons_of_mem c hmem)
      · cases o with
        | none =>
            left
            simp only [updEarliest] at heq
            injection heq with heq
            exact heq ▸ List.mem_cons_self c rest
        | some b =>
            simp only [updEarliest] at heq
            by_cases hb : isScheduledStrictlyBefore c b = true
            · rw [if_pos hb] at heq
              injection heq with heq
              exact Or.inl (heq ▸ List.mem_cons_self c rest)
            · rw [if_neg hb] at heq
              exact Or.inr heq

/-- C1: the aggregate precedence of
`identifyPendingDeterminationScenario`: any `PENDING_SCHEDULED` record
forces scenario 2; otherwise any `PENDING_AWAITING_DECISION` record forces
scenario 3; otherwise any `NOT_YET_SCHEDULED` record forces scenario 1;
otherwise the classifier returns no result. -/
theorem c1_scenario_precedence (today : DateTime) (pds : List PendingDetermination) :
    (identifyPendingDeterminationScenario today pds).map
        PendingDeterminationScenario.scenarioType =
      (if pds.any (fun pd =>
          decide (classifyRecord today pd = RecordClass.pendingScheduled)) then
        some ScenarioType.Scenario2
      else if pds.any (fun pd =>
          decide (classifyRecord today pd = RecordClass.pendingAwaitingDecision)) then
        some ScenarioType.Scenario3
      else if pds.any (fun pd =>
          decide (classifyRecord today pd = RecordClass.notYetScheduled)) then
        some ScenarioType.Scenario1
      else
        none) := by
  unfold identifyPendingDeterminationScenario
  rw [foldl_identifyStep]
  cases hfl : pds.filter (fun pd =>
      decide (classifyRecord today pd = RecordClass.pendingScheduled)) with
  | nil =>
      have hany : pds.any (fun pd =>
          decide (classifyRecord today pd = RecordClass.pendingScheduled)) = false := by
        simp only [List.any_eq_false, decide_eq_true_eq]
        intro x hx hc
        have hmem : x ∈ List.filter (fun pd =>
            decide (classifyRecord today pd = RecordClass.pendingScheduled)) pds :=
          List.mem_filter.mpr ⟨hx, decide_eq_true hc⟩
        rw [hfl] at hmem
        exact absurd hmem (List.not_mem_nil x)
      by_cases hA : pds.any (fun pd =>
          decide (classifyRecord today pd = RecordClass.pendingAwaitingDecision)) = true <;>
        by_cases hN : pds.any (fun pd =>
            decide (classifyRecord today pd = RecordClass.notYetScheduled)) = true <;>
          simp [hany, hA, hN]
  | cons a as =>
      have hamem : a ∈ pds.filter (fun pd =>
          decide (classifyRecord today pd = RecordClass.pendingScheduled)) := by
        rw [hfl]; exact List.mem_cons_self a as
      obtain ⟨hin, hcls⟩ := List.mem_filter.mp hamem
      have hany : pds.any (fun pd =>
          decide (classifyRecord today pd = RecordClass.pendingScheduled)) = true :=
        List.any_eq_true.mpr ⟨a, hin, hcls⟩
      rw [hany]
      simp [updEarliest, List.foldl_cons, foldl_updEarliest_some]

/-- The record comparison in the words of the spec (section 4.3, aggregate
rule 1): compare the parsed schedule dates first; on equal dates, tie-break
with `isFirstTimeSlotEarlier` on the time-slot descriptions, counting only
a definite "earlier" answer; otherwise the candidate is not earlier. -/
def specStrictlyEarlier (cur best : PendingDetermination) : Bool :=
  if (parseConvertDate cur.scheduleDate).key < (parseConvertDate best.scheduleDate).key then
    true
  else if (parseConvertDate cur.scheduleDate).key = (parseConvertDate best.scheduleDate).key then
    isFirstTimeSlotEarlier (cur.timeSlotDesc.getD "") (best.timeSlotDesc.getD "") == some true
  else
    false

/-- The selection in the words of the spec: scan the scheduled records in
input order, keeping the earliest found so far and replacing it only by a
strictly earlier one, so the first-seen record wins exact ties. -/
def selectEarliest (first : PendingDetermination)
    (rest : List PendingDetermination) : PendingDetermination :=
  rest.foldl (fun best cur => if specStrictlyEarlier cur best then cur else best) first

/-- The spec's comparison coincides with the code's
`isScheduledStrictlyBefore`. -/
theorem specStrictlyEarlier_eq (cur best : PendingDetermination) :
    specStrictlyEarlier cur best = isScheduledStrictlyBefore cur best := by
  unfold specStrictlyEarlier isScheduledStrictlyBefore
  by_cases h1 : (parseConvertDate cur.scheduleDate).key < (parseConvertDate best.scheduleDate).key
  · simp [h1]
  · by_cases h2 : (parseConvertDate best.scheduleDate).key < (parseConvertDate cur.scheduleDate).key
    · have hne : ¬ (parseConvertDate cur.scheduleDate).key =
          (parseConvertDate best.scheduleDate).key := by omega
      simp [h1, h2, hne]
    · have heq : (parseConvertDate cur.scheduleDate).key =
          (parseConvertDate best.scheduleDate).key := by omega
      simp only [h1, h2, heq, if_false, if_true, if_neg, ite_true, ite_false]
      cases hm : isFirstTimeSlotEarlier (cur.timeSlotDesc.getD "")
          (best.timeSlotDesc.getD "") with
      | none => simp
      | some b => cases b <;> simp

/-- C2: when at least one record is `PENDING_SCHEDULED` (the filtered list
is `first :: rest`), the classifier returns scenario 2 carrying exactly
the record selected by the spec's scan: earliest parsed schedule date
first, time-slot tie-break on equal dates, earliest-found-so-far kept when
the tie-break is undecidable or not-earlier, so the first record in input
order wins exact ties. -/
theorem c2_earliest_scheduled_selection (today : DateTime)
    (pds : List PendingDetermination) (first : PendingDetermination)
    (rest : List PendingDetermination)
    (h : pds.filter (fun pd =>
        decide (classifyRecord today pd = RecordClass.pendingScheduled)) = first :: rest) :
    identifyPendingDeterminationScenario today pds =
      some ⟨ScenarioType.Scenario2, some (selectEarliest first rest)⟩ := by
  unfold identifyPendingDeterminationScenario
  rw [foldl_identifyStep, h]
  have hfun : (fun (best cur : PendingDetermination) =>
      if specStrictlyEarlier cur best then cur else best) =
      (fun (best cur : PendingDetermination) =>
        if isScheduledStrictlyBefore cur best then cur else best) := by
    funext best cur
    rw [specStrictlyEarlier_eq]
  simp [selectEarliest, updEarliest, List.foldl_cons, foldl_updEarliest_some, hfun]

/-- Witness for C2: two scheduled records with different future dates (as
seen from 2020-05-05); the later-dated one comes first in input order but
the earlier-dated one is carried. -/
theorem c2_earliest_scheduled_selection_witness :
    identifyPendingDeterminationScenario ⟨2020, 5, 5, 0, 0, 0⟩
        [⟨none, some "2020-06-02T08:00:00", none, some "8-10"⟩,
         ⟨none, some "2020-06-01T08:00:00", none, some "8-10"⟩] =
      some ⟨ScenarioType.Scenario2,
        some (selectEarliest ⟨none, some "2020-06-02T08:00:00", none, some "8-10"⟩
          [⟨none, some "2020-06-01T08:00:00", none, some "8-10"⟩])⟩ :=
  c2_earliest_scheduled_selection ⟨2020, 5, 5, 0, 0, 0⟩
    [⟨none, some "2020-06-02T08:00:00", none, some "8-10"⟩,
     ⟨none, some "2020-06-01T08:00:00", none, some "8-10"⟩]
    ⟨none, some "2020-06-02T08:00:00", none, some "8-10"⟩
    [⟨none, some "2020-06-01T08:00:00", none, some "8-10"⟩]
    (by decide)

/-- A record is classified `PENDING_SCHEDULED` exactly when its status is
pending, its schedule date is accepted by `isValidDate`, and the parsed
schedule date is not past. -/
theorem classifyRecord_scheduled_iff (today : DateTime) (pd : PendingDetermination) :
    classifyRecord today pd = RecordClass.pendingScheduled ↔
      (isDeterminationStatusPending pd = true ∧
       isValidDate (pd.scheduleDate.getD "") = true ∧
       isDatePast (parseConvertDate pd.scheduleDate) today = false) := by
  unfold classifyRecord
  split_ifs with h1 h2 h3 <;> simp_all

/-- C10: whenever the classifier returns a non-null result, the carried
`pendingDetermination` field is present exactly for scenario 2, and the
carried record is an input record that is status-pending with a valid,
not-past schedule date. -/
theorem c10_result_invariant (today : DateTime) (pds : List PendingDetermination)
    (r : PendingDeterminationScenario)
    (h : identifyPendingDeterminationScenario today pds = some r) :
    (r.pendingDetermination.isSome = true ↔ r.scenarioType = ScenarioType.Scenario2) ∧
    (∀ pd, r.pendingDetermination = some pd →
      pd ∈ pds ∧ isDeterminationStatusPending pd = true ∧
      isValidDate (pd.scheduleDate.getD "") = true ∧
      isDatePast (parseConvertDate pd.scheduleDate) today = false) := by
  unfold identifyPendingDeterminationScenario at h
  rw [foldl_identifyStep] at h
  dsimp only at h
  cases hE : (pds.filter (fun pd =>
      decide (classifyRecord today pd = RecordClass.pendingScheduled))).foldl
        updEarliest none with
  | some e =>
      rw [hE] at h
      injection h with h
      subst h
      refine ⟨by simp, fun pd hpd => ?_⟩
      simp only [Option.some.injEq] at hpd
      subst hpd
      rcases foldl_updEarliest_mem _ none e hE with hmem | habs
      · obtain ⟨hin, hcls⟩ := List.mem_filter.mp hmem
        exact ⟨hin, (classifyRecord_scheduled_iff today e).mp (of_decide_eq_true hcls)⟩
      · exact absurd habs (by simp)
  | none =>
      rw [hE] at h
      by_cases hA : pds.any (fun pd =>
          decide (classifyRecord today pd = RecordClass.pendingAwaitingDecision)) = true
      · simp only [hA, Bool.false_or, if_true] at h
        injection h with h
        subst h
        exact ⟨by simp, by simp⟩
      · by_cases hN : pds.any (fun pd =>
            decide (classifyRecord today pd = RecordClass.notYetScheduled)) = true
        · simp only [hA, hN, Bool.false_or, if_false, if_true] at h
          injection h with h
          subst h
          exact ⟨by simp, by simp⟩
        · simp [hA, hN] at h

/-- Witness for C10: a single pending record scheduled in the future (as
seen from 2020-05-05) is carried by the scenario-2 result and satisfies
the stated per-record properties. -/
theorem c10_result_invariant_witness :
    (⟨none, some "2020-06-01T08:00:00", none, none⟩ : PendingDetermination) ∈
        [(⟨none, some "2020-06-01T08:00:00", none, none⟩ : PendingDetermination)] ∧
    isDeterminationStatusPending ⟨none, some "2020-06-01T08:00:00", none, none⟩ = true ∧
    isValidDate ((⟨none, some "2020-06-01T08:00:00", none, none⟩ :
        PendingDetermination).scheduleDate.getD "") = true ∧
    isDatePast (parseConvertDate (⟨none, some "2020-06-01T08:00:00", none, none⟩ :
        PendingDetermination).scheduleDate) ⟨2020, 5, 5, 0, 0, 0⟩ = false :=
  (c10_result_invariant ⟨2020, 5, 5, 0, 0, 0⟩
      [⟨none, some "2020-06-01T08:00:00", none, none⟩]
      ⟨ScenarioType.Scenario2, some ⟨none, some "2020-06-01T08:00:00", none, none⟩⟩
      (by decide)).2
    ⟨none, some "2020-06-01T08:00:00", none, none⟩ rfl
